import Mathlib

/-!
Verification of the kubernetes-runbooks MCP server's scraper + cache core
(`kubernetes_runbooks_server.py`) against its natural-language specification.

The shallow embedding models:
- the HTML pages seen by the scraper as abstract link lists / selector maps
  (BeautifulSoup parsing itself is external; each `find`/`get_text` result is
  taken as given input),
- the process-wide `runbooks_cache` dict as an insertion-ordered association
  list keyed by the entry's `slug` field (Python dicts preserve insertion
  order; assignment to an existing key keeps its position),
- the network as an `Env` mapping URLs to optional pages (`none` models any
  transport failure / raised exception, which the source catches and turns
  into an empty index or a `None` content result),
- Python text processing restricted to ASCII inputs (`str.lower`, `\s`).
-/

namespace KRunbooks

/-- One hyperlink on the catalog page: its `href` attribute and its visible
text (the `get_text(strip=True)` result, taken as given). -/
structure Link where
  href : String
  text : String
deriving DecidableEq

/-- A cache entry (`runbooks_cache` value). `content`/`description` are
`Option` because the Python dict simply lacks those keys until the entry is
upgraded on first read (line 228: `if 'content' not in runbook`). -/
structure Runbook where
  slug : String
  title : String
  url : String
  content : Option String
  description : Option String
deriving DecidableEq

/-- The result dict of `fetch_runbook_content` (lines 154-159): all four
fields always present. -/
structure ContentData where
  title : String
  content : String
  url : String
  description : String
deriving DecidableEq

/-- A runbook page as the scraper observes it through BeautifulSoup:
`findTitle s` is the stripped text of the first element matching selector `s`
(`none` when `soup.find(s)` is `None`); `findContainer s` is the
`get_text(separator='\n', strip=True)` text of the first element matching a
content selector, after the nav/header/footer decompose of lines 130-131;
`bodyText` is the body's text after the script/style decompose of
lines 148-150 (`none` when the page has no body element). -/
structure Page where
  findTitle : String → Option String
  findContainer : String → Option String
  bodyText : Option String

/-- The network environment: the catalog page's links (`none` = transport
failure, which `fetch_runbook_index` catches and converts to `[]`), and the
per-URL runbook pages (`none` = transport failure, which
`fetch_runbook_content` catches and converts to `None`). -/
structure Env where
  index : Option (List Link)
  pages : String → Option Page

/-- Resource URI as decomposed by pydantic's `AnyUrl`: scheme, host and path
components (for `runbook://kubernetes/slug` the host is `kubernetes` and the
path `/slug`). -/
structure Uri where
  scheme : String
  host : String
  path : String
deriving DecidableEq

/-- The error kinds raised by `handle_read_resource` (each a `ValueError` in
the source, named after its message). -/
inductive ReadError where
  | unsupportedScheme
  | invalidHost
  | noSlug
  | notFound
  | fetchFailed
deriving DecidableEq

/-! ### String helpers (Python semantics on ASCII, over `List Char`) -/

/-- `needle` occurs as a contiguous substring of the list (Python `in`).
The empty needle occurs in everything. -/
def listContains (needle : List Char) : List Char → Bool
  | [] => needle.isEmpty
  | c :: t => needle.isPrefixOf (c :: t) || listContains needle t

/-- Python `needle in hay` for strings. -/
def strContains (hay needle : String) : Bool :=
  listContains needle.data hay.data

/-- Python `str.split('/')`. -/
def splitSlash : List Char → List (List Char)
  | [] => [[]]
  | c :: cs =>
    let r := splitSlash cs
    if c == '/' then [] :: r
    else
      match r with
      | [] => [[c]]
      | h :: t => (c :: h) :: t

/-- Python `str.startswith(p)`. -/
def startsWithStr (s p : String) : Bool :=
  p.data.isPrefixOf s.data

/-- Python `str.lower()` (ASCII). -/
def toLowerStr (s : String) : String :=
  String.mk (s.data.map Char.toLower)

/-- A space or tab, the character class `[ \t]` of line 138. -/
def isHSpaceChar (c : Char) : Bool := c == ' ' || c == '\t'

/-- Python `\s` on ASCII text: space, tab, newline, carriage return,
vertical tab, form feed. -/
def isPyWS (c : Char) : Bool :=
  c == ' ' || c == '\t' || c == '\n' || c == '\r' || c == '\x0b' || c == '\x0c'

/-- `re.sub(r'[ \t]+', ' ', s)` (line 138): each maximal run of spaces/tabs
becomes a single space. The boolean argument records whether we are inside a
run already replaced. -/
def collapseHSpaceGo : Bool → List Char → List Char
  | _, [] => []
  | inRun, c :: cs =>
    if isHSpaceChar c then
      if inRun then collapseHSpaceGo true cs
      else ' ' :: collapseHSpaceGo true cs
    else c :: collapseHSpaceGo false cs

/-- String version of the `[ \t]+` collapse of line 138. -/
def collapseHSpaceStr (s : String) : String :=
  String.mk (collapseHSpaceGo false s.data)

/-- Length of the leftmost-greedy match of `\n\s*\n\s*\n+` inside the maximal
whitespace run `run` that starts the scan position: the match extends to the
last newline of the run. -/
def blankMatchLen (run : List Char) : Nat :=
  run.length - (run.reverse.takeWhile (fun c => c != '\n')).length

/-- `re.sub(r'\n\s*\n\s*\n+', '\n\n', s)` (lines 137 and 152). A match of
this pattern at a position is possible iff the character there is a newline
and the maximal whitespace run from it contains at least three newlines; the
leftmost-greedy match then extends to the last newline of that run and is
replaced by two newlines, scanning resuming after the match. The fuel
argument starts at the list length and strictly exceeds the characters still
to process, so the fuel-exhausted base case is never reached. -/
def collapseBlankGo : Nat → List Char → List Char
  | 0, l => l
  | _ + 1, [] => []
  | fuel + 1, c :: cs =>
    let run := (c :: cs).takeWhile isPyWS
    if c == '\n' && decide (3 ≤ run.count '\n') then
      '\n' :: '\n' :: collapseBlankGo fuel (cs.drop (blankMatchLen run - 1))
    else c :: collapseBlankGo fuel cs

/-- String version of the blank-line collapse of lines 137 and 152. -/
def collapseBlankStr (s : String) : String :=
  String.mk (collapseBlankGo s.data.length s.data)

/-! ### Index Resolver (`fetch_runbook_index`, lines 49-95) -/

/-- The catalog's base path literal (`'/posts/kubernetes/'`). -/
def basePath : String := "/posts/kubernetes/"

/-- The combined link filter of lines 62-71: `href` truthy, contains the base
path, is not the base path itself; title truthy, does not start with `Prev`,
`Next`, `1` or `2`, is not `…`, and is longer than 3 characters. -/
def keepLink (l : Link) : Bool :=
  l.href != "" && strContains l.href basePath && l.href != basePath &&
  (l.text != "" &&
   !startsWithStr l.text "Prev" &&
   !startsWithStr l.text "Next" &&
   !startsWithStr l.text "1" &&
   !startsWithStr l.text "2" &&
   l.text != "…" &&
   decide (3 < l.text.length))

/-- `urljoin("https://containersolutions.github.io", href)` (line 74),
modelled for the reference shapes the catalog produces: an absolute URL is
kept, anything else is resolved against the bare origin. -/
def urljoin (base href : String) : String :=
  if strContains href "://" then href else base ++ href

/-- Slug derivation of line 75: `href.split('/')[-2]` when the href ends in a
slash, `href.split('/')[-1]` otherwise (defaulting to the empty string where
Python would index out of range, unreachable for kept links). -/
def slugOf (href : String) : String :=
  let parts := splitSlash href.data
  if href.data.getLastD 'x' == '/' then
    String.mk (parts.getD (parts.length - 2) [])
  else
    String.mk (parts.getLastD [])

/-- The entry dict appended at lines 77-81. -/
def mkEntry (l : Link) : Runbook :=
  { slug := slugOf l.href
    title := l.text
    url := urljoin "https://containersolutions.github.io" l.href
    content := none
    description := none }

/-- The `runbooks` list built by the scan loop of lines 60-81 (kept links in
encounter order, one entry each). -/
def rawEntries (links : List Link) : List Runbook :=
  links.filterMap (fun l => if keepLink l then some (mkEntry l) else none)

/-- The dedup pass of lines 83-89: `seen` is the `seen_slugs` set, the result
the `unique_runbooks` list. -/
def dedupSlugs : List Runbook → List String → List Runbook
  | [], _ => []
  | r :: rs, seen =>
    if r.slug ∈ seen then dedupSlugs rs seen
    else r :: dedupSlugs rs (r.slug :: seen)

/-- `fetch_runbook_index` (lines 49-95): empty on transport failure,
otherwise the filtered, slug-deduplicated entry list. -/
def fetchRunbookIndex (env : Env) : List Runbook :=
  match env.index with
  | none => []
  | some links => dedupSlugs (rawEntries links) []

/-! ### Content Extractor (`fetch_runbook_content`, lines 97-163) -/

/-- The title selector list of line 107. -/
def titleSelectors : List String := ["h1", ".post-title", ".entry-title", "title"]

/-- The content selector list of lines 116-124. -/
def contentSelectors : List String :=
  ["main", "article", ".post-content", ".entry-content", ".content", ".post", "body"]

/-- Title loop of lines 108-112: the text of the first selector whose
element exists (breaking on the element, even when its text is empty). -/
def scanTitle (find : String → Option String) : List String → String
  | [] => ""
  | s :: rest =>
    match find s with
    | some t => t
    | none => scanTitle find rest

/-- The two-step normalization of lines 137-138: blank-line collapse, then
horizontal-whitespace collapse. -/
def normalizeContainer (raw : String) : String :=
  collapseHSpaceStr (collapseBlankStr raw)

/-- Content loop of lines 126-142: `acc` is the running `content` variable
(kept when a selector finds nothing, overwritten when it does); the loop
breaks as soon as the normalized text exceeds 100 characters. -/
def scanGo (find : String → Option String) : List String → String → String
  | [], acc => acc
  | s :: rest, acc =>
    match find s with
    | none => scanGo find rest acc
    | some raw =>
      let c := normalizeContainer raw
      if 100 < c.length then c else scanGo find rest c

/-- The full container scan, started with `content = ""` (line 115). -/
def scanContainers (find : String → Option String) : String :=
  scanGo find contentSelectors ""

/-- `fetch_runbook_content`'s successful body (lines 103-159): title scan,
container scan, the `< 100` body fallback of lines 145-152 (which applies
only the blank-line collapse), and the description truncation of line 158. -/
def extractContent (url : String) (p : Page) : ContentData :=
  let title := scanTitle p.findTitle titleSelectors
  let scanned := scanContainers p.findContainer
  let content :=
    if scanned.length < 100 then
      match p.bodyText with
      | some b => collapseBlankStr b
      | none => scanned
    else scanned
  { title := if title == "" then "Untitled Runbook" else title
    content := content
    url := url
    description :=
      if 200 < content.length then String.mk (content.data.take 200) ++ "..."
      else content }

/-- `fetch_runbook_content` (lines 97-163): `none` exactly on transport
failure (the caught exception path). -/
def fetchRunbookContent (env : Env) (url : String) : Option ContentData :=
  (env.pages url).map (extractContent url)

/-! ### Runbook Cache operations -/

/-- `runbooks_cache[r.slug] = r` on an insertion-ordered dict: replace the
existing entry with that slug in place, else append. -/
def cachePut (c : List Runbook) (r : Runbook) : List Runbook :=
  match c with
  | [] => [r]
  | x :: xs => if x.slug == r.slug then r :: xs else x :: cachePut xs r

/-- `slug in runbooks_cache` / `runbooks_cache[slug]`. -/
def cacheGet (c : List Runbook) (slug : String) : Option Runbook :=
  c.find? (fun r => r.slug == slug)

/-- The insertion loop `for runbook in runbooks: cache[runbook['slug']] = runbook`
(lines 219-220 and the three lazy-load sites). -/
def insertAll (c : List Runbook) (rs : List Runbook) : List Runbook :=
  rs.foldl cachePut c

/-- The empty-cache lazy load shared by `handle_list_resources`,
`search-runbooks` and `list-topics` (lines 178-182, 403-406, 428-431). -/
def ensureLoaded (env : Env) (cache : List Runbook) : List Runbook :=
  if cache.isEmpty then insertAll cache (fetchRunbookIndex env) else cache

/-- The slug extracted from the URI path at line 211 (`lstrip('/')`). -/
def uriSlug (uri : Uri) : String :=
  String.mk (uri.path.data.dropWhile (fun c => c == '/'))

/-- The miss-triggered index resolution of lines 216-220: when the slug is
absent, fetch the index and assign every returned entry into the cache. -/
def resolveStep (env : Env) (cache : List Runbook) (slug : String) : List Runbook :=
  if (cacheGet cache slug).isNone then insertAll cache (fetchRunbookIndex env) else cache

/-- `runbook.update(content_data)` (line 231): every key of the extractor's
dict — title, url, content, description — replaces the entry's value; only
`slug` is untouched. -/
def updateRunbook (rb : Runbook) (cd : ContentData) : Runbook :=
  { slug := rb.slug
    title := cd.title
    url := cd.url
    content := some cd.content
    description := some cd.description }

/-- The return format of line 235. -/
def formatRunbook (rb : Runbook) : String :=
  "# " ++ rb.title ++ "\n\n" ++ rb.content.getD "" ++ "\n\nSource: " ++ rb.url

/-- `handle_read_resource` (lines 197-235), returning the result (formatted
text or raised error) together with the cache left behind — mutations made
before a raise persist, as for the Python global. -/
def handleReadResource (env : Env) (cache : List Runbook) (uri : Uri) :
    Except ReadError String × List Runbook :=
  if uri.scheme ≠ "runbook" then (.error .unsupportedScheme, cache)
  else if uri.host ≠ "kubernetes" then (.error .invalidHost, cache)
  else if uriSlug uri = "" then (.error .noSlug, cache)
  else
    match cacheGet (resolveStep env cache (uriSlug uri)) (uriSlug uri) with
    | none => (.error .notFound, resolveStep env cache (uriSlug uri))
    | some rb =>
      match rb.content with
      | some _ => (.ok (formatRunbook rb), resolveStep env cache (uriSlug uri))
      | none =>
        match fetchRunbookContent env rb.url with
        | none => (.error .fetchFailed, resolveStep env cache (uriSlug uri))
        | some cd =>
          (.ok (formatRunbook (updateRunbook rb cd)),
           cachePut (resolveStep env cache (uriSlug uri)) (updateRunbook rb cd))

/-- The match predicate of line 411: query contained in the lowercased title
or the lowercased slug (the query itself was lowercased at line 400 before
this is called). -/
def searchMatches (q : String) (rb : Runbook) : Bool :=
  strContains (toLowerStr rb.title) q || strContains (toLowerStr rb.slug) q

/-- The formatted line appended at line 412 / 436. -/
def fmtLine (rb : Runbook) : String :=
  "- **" ++ rb.title ++ "** (slug: " ++ rb.slug ++ ")"

/-- `search-runbooks` (lines 396-424): lowercase the query, lazily load the
index, return the matching lines and the cache left behind. -/
def searchRunbooks (env : Env) (cache : List Runbook) (rawQuery : String) :
    List String × List Runbook :=
  let q := toLowerStr rawQuery
  let cache1 := ensureLoaded env cache
  ((cache1.filter (searchMatches q)).map fmtLine, cache1)

/-- `list-topics` (lines 426-447): lazily load the index, return one line per
entry in cache order. -/
def listTopics (env : Env) (cache : List Runbook) : List String × List Runbook :=
  let cache1 := ensureLoaded env cache
  (cache1.map fmtLine, cache1)

/-- The raw (pre-dedup) entry list the index scan produces for an
environment. -/
def rawEntriesOf (env : Env) : List Runbook :=
  match env.index with
  | none => []
  | some links => rawEntries links

/-- The invalid-URI error kind `handle_read_resource` raises for a given URI
(meaningful when the URI fails one of the three validation checks of
lines 203-213). -/
def uriError (uri : Uri) : ReadError :=
  if uri.scheme ≠ "runbook" then .unsupportedScheme
  else if uri.host ≠ "kubernetes" then .invalidHost
  else .noSlug

/-! ### Helper lemmas -/

theorem listContains_nil (l : List Char) : listContains [] l = true := by
  cases l <;> simp [listContains, List.isPrefixOf]

theorem cacheGet_slug_eq {c : List Runbook} {s : String} {r : Runbook}
    (h : cacheGet c s = some r) : r.slug = s := by
  have := List.find?_some h
  simpa using this

theorem cacheGet_cachePut_self {r : Runbook} {s : String} (c : List Runbook)
    (h : r.slug = s) : cacheGet (cachePut c r) s = some r := by
  subst h
  induction c with
  | nil => simp [cachePut, cacheGet]
  | cons x xs ih =>
    by_cases hx : x.slug = r.slug
    · simp [cachePut, cacheGet, hx]
    · simp only [cacheGet] at ih
      simp [cachePut, cacheGet, hx, ih]

theorem cacheGet_cachePut_ne {r : Runbook} {s : String} (c : List Runbook)
    (h : r.slug ≠ s) : cacheGet (cachePut c r) s = cacheGet c s := by
  induction c with
  | nil => simp [cachePut, cacheGet, h]
  | cons x xs ih =>
    by_cases hx : x.slug = r.slug
    · have hxs : x.slug ≠ s := by rw [hx]; exact h
      simp [cachePut, cacheGet, hx, h, hxs]
    · by_cases hxs : x.slug = s
      · have hsr : s ≠ r.slug := fun hh => h hh.symm
        simp [cachePut, cacheGet, hx, hxs, hsr]
      · simp only [cacheGet] at ih
        simp [cachePut, cacheGet, hx, hxs, ih]

theorem dedupSlugs_sublist :
    ∀ (l : List Runbook) (seen : List String), List.Sublist (dedupSlugs l seen) l
  | [], _ => List.Sublist.slnil
  | r :: rs, seen => by
    unfold dedupSlugs
    split
    · exact List.Sublist.cons r (dedupSlugs_sublist rs seen)
    · exact List.Sublist.cons₂ r (dedupSlugs_sublist rs (r.slug :: seen))

theorem mem_dedupSlugs :
    ∀ (l : List Runbook) (seen : List String) (r : Runbook),
      r ∈ dedupSlugs l seen ↔
        r.slug ∉ seen ∧ l.find? (fun x => x.slug == r.slug) = some r
  | [], seen, r => by simp [dedupSlugs]
  | x :: xs, seen, r => by
    by_cases hmem : x.slug ∈ seen
    · have hd : dedupSlugs (x :: xs) seen = dedupSlugs xs seen := by
        simp [dedupSlugs, hmem]
      rw [hd, mem_dedupSlugs xs seen r]
      by_cases hx : x.slug = r.slug
      · have hrs : r.slug ∈ seen := by rw [← hx]; exact hmem
        constructor
        · rintro ⟨hns, -⟩
          exact absurd hrs hns
        · rintro ⟨hns, -⟩
          exact absurd hrs hns
      · have hb : (x.slug == r.slug) = false := beq_eq_false_iff_ne.mpr hx
        rw [show List.find? (fun y => y.slug == r.slug) (x :: xs)
            = List.find? (fun y => y.slug == r.slug) xs from by
          simp [List.find?_cons, hb]]
    · have hd : dedupSlugs (x :: xs) seen = x :: dedupSlugs xs (x.slug :: seen) := by
        simp [dedupSlugs, hmem]
      rw [hd]
      by_cases hx : x.slug = r.slug
      · have hb : (x.slug == r.slug) = true := beq_iff_eq.mpr hx
        simp only [List.mem_cons, mem_dedupSlugs xs (x.slug :: seen) r,
          List.find?_cons, hb, cond_true]
        constructor
        · rintro (rfl | ⟨hns, -⟩)
          · exact ⟨by rw [← hx]; exact hmem, rfl⟩
          · exact absurd (Or.inl hx.symm) hns
        · rintro ⟨-, hfind⟩
          exact Or.inl (Option.some.inj hfind).symm
      · have hb : (x.slug == r.slug) = false := beq_eq_false_iff_ne.mpr hx
        simp only [List.mem_cons, mem_dedupSlugs xs (x.slug :: seen) r,
          List.find?_cons, hb, cond_false, not_or]
        constructor
        · rintro (rfl | ⟨⟨hne, hns⟩, hfind⟩)
          · exact absurd rfl hx
          · exact ⟨hns, hfind⟩
        · rintro ⟨hns, hfind⟩
          refine Or.inr ⟨⟨?_, hns⟩, hfind⟩
          intro hh
          exact hx hh.symm

theorem dedupSlugs_pairwise :
    ∀ (l : List Runbook) (seen : List String),
      (dedupSlugs l seen).Pairwise (fun a b => a.slug ≠ b.slug)
  | [], _ => by simp [dedupSlugs]
  | x :: xs, seen => by
    by_cases hmem : x.slug ∈ seen
    · rw [show dedupSlugs (x :: xs) seen = dedupSlugs xs seen from by
        simp [dedupSlugs, hmem]]
      exact dedupSlugs_pairwise xs seen
    · rw [show dedupSlugs (x :: xs) seen = x :: dedupSlugs xs (x.slug :: seen) from by
        simp [dedupSlugs, hmem]]
      refine List.Pairwise.cons (fun b hb => ?_) (dedupSlugs_pairwise xs (x.slug :: seen))
      have := (mem_dedupSlugs xs (x.slug :: seen) b).mp hb
      have hbs : b.slug ∉ x.slug :: seen := this.1
      intro hcontra
      exact hbs (hcontra ▸ List.mem_cons_self _ _)

theorem scanGo_first_long (find : String → Option String) :
    ∀ (L : List String) (acc : String) (k : Nat) (hk : k < L.length) (raw : String),
      find (L.get ⟨k, hk⟩) = some raw →
      100 < (normalizeContainer raw).length →
      (∀ j (hj : j < k) (r : String),
        find (L.get ⟨j, Nat.lt_trans hj hk⟩) = some r →
        (normalizeContainer r).length ≤ 100) →
      scanGo find L acc = normalizeContainer raw
  | [], acc, k, hk, raw => by simp at hk
  | s :: rest, acc, k, hk, raw => by
    intro hfind hlong hprev
    cases k with
    | zero =>
      simp only [List.get] at hfind
      simp [scanGo, hfind, if_pos hlong]
    | succ k =>
      cases hs : find s with
      | none =>
        simp only [scanGo, hs]
        exact scanGo_first_long find rest acc k (Nat.lt_of_succ_lt_succ hk) raw
          (by simpa only [List.get] using hfind) hlong
          (fun j hj r hr => hprev (j + 1) (Nat.succ_lt_succ hj) r
            (by simpa only [List.get] using hr))
      | some r =>
        have hr := hprev 0 (Nat.succ_pos k) r (by simpa only [List.get] using hs)
        simp only [scanGo, hs, if_neg (Nat.not_lt.mpr hr)]
        exact scanGo_first_long find rest (normalizeContainer r) k
          (Nat.lt_of_succ_lt_succ hk) raw
          (by simpa only [List.get] using hfind) hlong
          (fun j hj r2 hr2 => hprev (j + 1) (Nat.succ_lt_succ hj) r2
            (by simpa only [List.get] using hr2))

/-! ### Claim C3 (corrected) -/

/-- The link filter as claim C3 states it: identical to the code's filter
except that it rejects a visible text starting with ANY digit 0-9, where the
code only checks the literals `'1'` and `'2'`. -/
def keepClaimC3 (l : Link) : Bool :=
  strContains l.href basePath && l.href != basePath &&
  (l.text != "" && decide (3 < l.text.length) && l.text != "…" &&
   !startsWithStr l.text "Prev" && !startsWithStr l.text "Next" &&
   !(l.text.data.headD 'x').isDigit)

/-- The link filter as amended: leading `'1'` or `'2'` (the code's two
page-number literals) instead of any leading digit. The code's redundant
href-truthiness check is implied by the base-path containment. -/
def keepAmended (l : Link) : Bool :=
  strContains l.href basePath && l.href != basePath &&
  (l.text != "" && decide (3 < l.text.length) && l.text != "…" &&
   !startsWithStr l.text "Prev" && !startsWithStr l.text "Next" &&
   !startsWithStr l.text "1" && !startsWithStr l.text "2")

theorem keepLink_eq_keepAmended (l : Link) : keepLink l = keepAmended l := by
  unfold keepLink keepAmended
  by_cases h0 : l.href = ""
  · rw [h0]
    simp [show strContains "" basePath = false from by decide]
  · have h0b : (l.href != "") = true := by simpa using h0
    rw [h0b]
    simp only [Bool.true_and]
    simp [Bool.and_comm, Bool.and_left_comm, Bool.and_assoc]

/-- A link kept by the code but excluded by the claim's filter: its visible
text starts with the digit `'4'`, which the claim says is rejected, yet the
scan keeps it as a runbook entry. -/
def linkC3 : Link := { href := "/posts/kubernetes/404-errors/", text := "404 errors guide" }

/-- Counterexample to C3 as stated: the link with text `"404 errors guide"`
(leading digit `'4'`, length > 3) is kept by `fetch_runbook_index` even
though the claim's filter — which rejects any leading digit 0-9 — excludes
it. The code only filters leading `'1'` and `'2'`. -/
theorem keep_digit_counterexample :
    rawEntries [linkC3] = [mkEntry linkC3] ∧
    keepClaimC3 linkC3 = false ∧
    (mkEntry linkC3).title = "404 errors guide" := by
  refine ⟨by decide, by decide, rfl⟩

/-- C3 (amended): a hyperlink is kept as a (pre-dedup) runbook entry exactly
when its target path contains the catalog base path segment and is not the
base path itself, and its visible text is non-empty, longer than 3
characters, not the ellipsis placeholder, and does not start with `"Prev"`,
`"Next"`, `"1"` or `"2"`. -/
theorem index_keeps_iff_filter (links : List Link) :
    rawEntries links = (links.filter keepAmended).map mkEntry := by
  induction links with
  | nil => rfl
  | cons l ls ih =>
    rw [List.filter_cons]
    by_cases hk : keepAmended l
    · have hkl : keepLink l = true := by rw [keepLink_eq_keepAmended]; exact hk
      simp only [rawEntries, List.filterMap_cons, hkl, if_true, hk, List.map_cons]
      exact congrArg _ ih
    · have hkl : keepLink l = false := by rw [keepLink_eq_keepAmended]; simpa using hk
      simp only [rawEntries, List.filterMap_cons, hkl, Bool.false_eq_true, if_false, hk]
      exact ih

/-- C3 witness: the amended filter characterization evaluated on the sample
link list of the spec's test vector. -/
theorem index_keeps_iff_filter_witness :
    rawEntries [linkC3] = ([linkC3].filter keepAmended).map mkEntry :=
  index_keeps_iff_filter [linkC3]

/-! ### Claim C8 (confirmed) -/

/-- C8: the resolved index contains at most one entry per slug (pairwise
distinct slugs), is a sublist of the kept-links list (so encounter order is
preserved), and an entry is in the result exactly when it is the FIRST
kept entry with its slug — first occurrence wins. -/
theorem index_dedup_first_wins (env : Env) :
    List.Sublist (fetchRunbookIndex env) (rawEntriesOf env) ∧
    (fetchRunbookIndex env).Pairwise (fun a b => a.slug ≠ b.slug) ∧
    (∀ r : Runbook, r ∈ fetchRunbookIndex env ↔
      (rawEntriesOf env).find? (fun x => x.slug == r.slug) = some r) := by
  have hfi : fetchRunbookIndex env = dedupSlugs (rawEntriesOf env) [] := by
    cases henv : env.index <;> simp [fetchRunbookIndex, rawEntriesOf, henv, dedupSlugs]
  rw [hfi]
  refine ⟨dedupSlugs_sublist _ _, dedupSlugs_pairwise _ _, fun r => ?_⟩
  rw [mem_dedupSlugs (rawEntriesOf env) [] r]
  simp

/-- An index page with two kept links deriving the same slug. -/
def envC8 : Env :=
  { index := some [{ href := "/posts/kubernetes/pod-x/", text := "Pod CrashLoopBackOff" },
                   { href := "/posts/kubernetes/pod-x/", text := "Pod CrashLoopBackOff again" }]
    pages := fun _ => none }

/-- C8 witness: the dedup theorem instantiated at a concrete index page with
a duplicate slug. -/
theorem index_dedup_first_wins_witness :
    (fetchRunbookIndex envC8).Pairwise (fun a b => a.slug ≠ b.slug) :=
  (index_dedup_first_wins envC8).2.1

/-! ### Claim C2 (corrected) -/

/-- A page on which no container selector matches at all and whose body text
contains a double space, exercising the body fallback path. -/
def pgC2 : Page := ⟨fun _ => none, fun _ => none, some "a  b"⟩

/-- Counterexample to C2 as stated: on the fallback path the code applies
ONLY the blank-line collapse (line 152), not the horizontal-whitespace
collapse. For a body text `"a  b"` the fallback returns `"a  b"` unchanged,
while the container-path normalization the claim promises would return
`"a b"`. -/
theorem fallback_normalization_counterexample :
    (scanContainers pgC2.findContainer).length < 100 ∧
    (extractContent "u" pgC2).content = "a  b" ∧
    collapseHSpaceStr (collapseBlankStr "a  b") = "a b" ∧
    ("a  b" : String) ≠ "a b" := by
  refine ⟨by decide, rfl, rfl, by decide⟩

/-- C2 (amended): when the container scan ends with text shorter than 100
characters, `extract_content` falls back to the full page body with script
and style elements stripped, applying to it only the blank-line collapse
(3+ consecutive blank lines to exactly one), NOT the horizontal-whitespace
collapse of the container path. -/
theorem fallback_blank_collapse_only (u : String) (p : Page) (b : String)
    (hscan : (scanContainers p.findContainer).length < 100)
    (hbody : p.bodyText = some b) :
    (extractContent u p).content = collapseBlankStr b := by
  simp [extractContent, hbody, if_pos hscan]

/-- C2 witness: the amended fallback behaviour at a concrete page. -/
theorem fallback_blank_collapse_only_witness :
    (extractContent "u" pgC2).content = collapseBlankStr "a  b" :=
  fallback_blank_collapse_only "u" pgC2 "a  b" (by decide) rfl

/-! ### Claim C7 (confirmed) -/

/-- C7: the container scan stops at the first selector (in priority order)
whose normalized text exceeds 100 characters; finds at earlier selectors
whose normalized text is at or below the threshold are scanned past, and the
extractor's content is the first exceeding text. -/
theorem extract_stops_at_first_long (u : String) (p : Page) (k : Nat)
    (hk : k < contentSelectors.length) (raw : String)
    (hfind : p.findContainer (contentSelectors.get ⟨k, hk⟩) = some raw)
    (hlong : 100 < (normalizeContainer raw).length)
    (hprev : ∀ j (hj : j < k) (r : String),
      p.findContainer (contentSelectors.get ⟨j, Nat.lt_trans hj hk⟩) = some r →
      (normalizeContainer r).length ≤ 100) :
    (extractContent u p).content = normalizeContainer raw := by
  have hscan : scanContainers p.findContainer = normalizeContainer raw :=
    scanGo_first_long p.findContainer contentSelectors "" k hk raw hfind hlong hprev
  simp [extractContent, hscan, if_neg (Nat.not_lt.mpr (Nat.le_of_lt hlong))]

/-- A 50-character container text (for the `main` selector). -/
def raw50 : String := String.mk (List.replicate 50 'a')

/-- A 150-character container text (for the `article` selector). -/
def raw150 : String := String.mk (List.replicate 150 'b')

/-- Selector map of the length-gate scenario: `main` yields 50 characters,
`article` yields 150, nothing else matches. -/
def pgC7find (s : String) : Option String :=
  if s = "main" then some raw50 else if s = "article" then some raw150 else none

/-- The length-gate scenario page. -/
def pgC7 : Page := ⟨fun _ => none, pgC7find, some "BODY"⟩

set_option maxRecDepth 8192 in
/-- C7 witness: with a 50-character `main` and a 150-character `article`, the
extractor returns the 150-character text. -/
theorem extract_stops_at_first_long_witness :
    (extractContent "u" pgC7).content = normalizeContainer raw150 :=
  extract_stops_at_first_long "u" pgC7 1 (by decide) raw150 (by decide) (by decide)
    (fun j hj r hr => by
      have hj0 : j = 0 := Nat.lt_one_iff.mp hj
      subst hj0
      have hr2 : raw50 = r := Option.some.inj hr
      rw [← hr2]
      decide)

/-! ### Claim C9 (confirmed) -/

/-- C9: a resource URI whose scheme is not `runbook`, or whose authority is
not `kubernetes`, or whose path carries no slug, is rejected with one of the
three invalid-URI errors, for every environment and every cache, and the
returned cache is the input cache unchanged — no cache lookup or fetch can
have influenced the result. -/
theorem invalid_uri_rejected (env : Env) (cache : List Runbook) (uri : Uri)
    (h : uri.scheme ≠ "runbook" ∨ uri.host ≠ "kubernetes" ∨ uriSlug uri = "") :
    handleReadResource env cache uri = (.error (uriError uri), cache) ∧
    (uriError uri = .unsupportedScheme ∨ uriError uri = .invalidHost ∨
     uriError uri = .noSlug) := by
  by_cases h1 : uri.scheme = "runbook"
  · by_cases h2 : uri.host = "kubernetes"
    · have h3 : uriSlug uri = "" := by tauto
      refine ⟨?_, Or.inr (Or.inr ?_)⟩ <;> simp [handleReadResource, uriError, h1, h2, h3]
    · refine ⟨?_, Or.inr (Or.inl ?_)⟩ <;> simp [handleReadResource, uriError, h1, h2]
  · refine ⟨?_, Or.inl ?_⟩ <;> simp [handleReadResource, uriError, h1]

/-- An environment/URI pair with a bad scheme. -/
def envC9 : Env := ⟨some [], fun _ => none⟩

/-- C9 witness: the URI `http://kubernetes/a` is rejected with the
unsupported-scheme error and the cache is untouched. -/
theorem invalid_uri_rejected_witness :
    handleReadResource envC9 [] ⟨"http", "kubernetes", "/a"⟩
      = (.error .unsupportedScheme, []) :=
  (invalid_uri_rejected envC9 [] ⟨"http", "kubernetes", "/a"⟩ (Or.inl (by decide))).1

/-! ### Claim C10 (confirmed) -/

/-- C10: after the lazy index population, searching with the empty-string
query matches every cached entry — the matching lines are exactly one
formatted line per entry of the post-load cache, in order. -/
theorem search_empty_matches_all (env : Env) (cache : List Runbook) :
    (searchRunbooks env cache "").1 = ((searchRunbooks env cache "").2).map fmtLine := by
  have hall : ∀ rb : Runbook, searchMatches (toLowerStr "") rb = true := fun rb => by
    simp [searchMatches, toLowerStr, strContains, listContains_nil]
  simp only [searchRunbooks]
  rw [List.filter_eq_self.mpr (fun rb _ => hall rb)]

/-- A cached entry for the search witness. -/
def rbC10 : Runbook := ⟨"pod-pending", "Pod CrashLoopBackOff", "u", none, none⟩

/-- Environment for the search witness (index never consulted: cache is
non-empty). -/
def envC10 : Env := ⟨some [], fun _ => none⟩

/-- C10 witness: the empty query matches the whole (already populated)
cache. -/
theorem search_empty_matches_all_witness :
    (searchRunbooks envC10 [rbC10] "").1
      = ((searchRunbooks envC10 [rbC10] "").2).map fmtLine :=
  search_empty_matches_all envC10 [rbC10]

/-! ### Read-path normal form -/

theorem resolveStep_of_found (env : Env) {cache : List Runbook} {slug : String}
    {rb : Runbook} (h : cacheGet cache slug = some rb) :
    resolveStep env cache slug = cache := by
  simp [resolveStep, h]

theorem updateRunbook_content (rb : Runbook) (cd : ContentData) :
    (updateRunbook rb cd).content = some cd.content := rfl

theorem handleRead_valid (env : Env) (cache : List Runbook) (uri : Uri)
    (h1 : uri.scheme = "runbook") (h2 : uri.host = "kubernetes")
    (h3 : uriSlug uri ≠ "") :
    handleReadResource env cache uri =
      match cacheGet (resolveStep env cache (uriSlug uri)) (uriSlug uri) with
      | none => (.error .notFound, resolveStep env cache (uriSlug uri))
      | some rb =>
        match rb.content with
        | some _ => (.ok (formatRunbook rb), resolveStep env cache (uriSlug uri))
        | none =>
          match fetchRunbookContent env rb.url with
          | none => (.error .fetchFailed, resolveStep env cache (uriSlug uri))
          | some cd =>
            (.ok (formatRunbook (updateRunbook rb cd)),
             cachePut (resolveStep env cache (uriSlug uri)) (updateRunbook rb cd)) := by
  simp [handleReadResource, h1, h2, h3]

/-! ### Claim C5 (confirmed) -/

/-- C5: for a well-formed URI, `read` fails with NotFound exactly when the
slug is still absent from the cache after the miss-triggered
index-resolution step, fails with FetchFailed exactly when the cached entry
lacks content and the Content Extractor returns no result, and in every
failure case the final cache is exactly the post-resolution cache: no
partial merge ever happens, the merge being a single atomic update performed
only on extractor success. -/
theorem read_error_semantics (env : Env) (cache : List Runbook) (uri : Uri)
    (h1 : uri.scheme = "runbook") (h2 : uri.host = "kubernetes")
    (h3 : uriSlug uri ≠ "") :
    ((handleReadResource env cache uri).1 = .error .notFound ↔
       cacheGet (resolveStep env cache (uriSlug uri)) (uriSlug uri) = none) ∧
    ((handleReadResource env cache uri).1 = .error .fetchFailed ↔
       (∃ rb, cacheGet (resolveStep env cache (uriSlug uri)) (uriSlug uri) = some rb ∧
              rb.content = none ∧ fetchRunbookContent env rb.url = none)) ∧
    (∀ e, (handleReadResource env cache uri).1 = .error e →
       (handleReadResource env cache uri).2 = resolveStep env cache (uriSlug uri)) := by
  rw [handleRead_valid env cache uri h1 h2 h3]
  cases hc : cacheGet (resolveStep env cache (uriSlug uri)) (uriSlug uri) with
  | none => simp
  | some rb =>
    cases hcont : rb.content with
    | some c => simp [hcont]
    | none =>
      cases hf : fetchRunbookContent env rb.url with
      | none => simp [hcont, hf]
      | some cd => simp [hcont, hf]

/-- Environment of the spec's NotFound test vector: the index resolves to an
empty entry list. -/
def envC5 : Env := ⟨some [], fun _ => none⟩

/-- The URI of a nonexistent slug. -/
def uriC5 : Uri := ⟨"runbook", "kubernetes", "/nonexistent-slug"⟩

/-- C5 witness: `read("nonexistent-slug")` on an empty cache performs the
index-resolution attempt and then fails with NotFound. -/
theorem read_error_semantics_witness :
    (handleReadResource envC5 [] uriC5).1 = .error .notFound :=
  (read_error_semantics envC5 [] uriC5 rfl rfl (by decide)).1.mpr (by decide)

/-! ### Claim C6 (confirmed) -/

/-- C6: a successful `read` is idempotent — if a call returns formatted text
`text` and leaves cache `c1`, then reading the same URI again, under ANY
network environment (so with no dependence on the Index Resolver or the
Content Extractor), returns the same text and leaves the cache unchanged. -/
theorem read_idempotent (env env2 : Env) (cache : List Runbook) (uri : Uri)
    (text : String) (c1 : List Runbook)
    (h : handleReadResource env cache uri = (.ok text, c1)) :
    handleReadResource env2 c1 uri = (.ok text, c1) := by
  by_cases h1 : uri.scheme = "runbook"
  case neg => simp [handleReadResource, h1] at h
  by_cases h2 : uri.host = "kubernetes"
  case neg => simp [handleReadResource, h1, h2] at h
  by_cases h3 : uriSlug uri = ""
  case pos => simp [handleReadResource, h1, h2, h3] at h
  rw [handleRead_valid env cache uri h1 h2 h3] at h
  rw [handleRead_valid env2 c1 uri h1 h2 h3]
  cases hc : cacheGet (resolveStep env cache (uriSlug uri)) (uriSlug uri) with
  | none => simp only [hc] at h; simp at h
  | some rb =>
    cases hcont : rb.content with
    | some c =>
      simp only [hc, hcont, Prod.mk.injEq, Except.ok.injEq] at h
      obtain ⟨htext, hcache⟩ := h
      subst htext
      subst hcache
      simp only [resolveStep_of_found env2 hc, hc, hcont]
    | none =>
      cases hf : fetchRunbookContent env rb.url with
      | none => simp only [hc, hcont, hf] at h; simp at h
      | some cd =>
        simp only [hc, hcont, hf, Prod.mk.injEq, Except.ok.injEq] at h
        obtain ⟨htext, hcache⟩ := h
        subst htext
        subst hcache
        have hslug : (updateRunbook rb cd).slug = uriSlug uri := by
          simp [updateRunbook, cacheGet_slug_eq hc]
        have hget : cacheGet
            (cachePut (resolveStep env cache (uriSlug uri)) (updateRunbook rb cd))
            (uriSlug uri) = some (updateRunbook rb cd) :=
          cacheGet_cachePut_self _ hslug
        simp only [resolveStep_of_found env2 hget, hget, updateRunbook_content]

/-- Environment of the idempotence witness (no network needed: content is
already cached). -/
def envC6 : Env := ⟨some [], fun _ => none⟩

/-- A fully upgraded cache entry. -/
def rbC6 : Runbook := ⟨"a", "T", "u", some "C", some "C"⟩

/-- The URI of the cached entry. -/
def uriC6 : Uri := ⟨"runbook", "kubernetes", "/a"⟩

/-- C6 witness: a second read of a cached-with-content entry returns the
same formatted text and cache. -/
theorem read_idempotent_witness :
    handleReadResource envC6 [rbC6] uriC6
      = (.ok "# T\n\nC\n\nSource: u", [rbC6]) :=
  read_idempotent envC6 envC6 [rbC6] uriC6 "# T\n\nC\n\nSource: u" [rbC6] rfl

/-! ### Claim C4 (corrected) -/

/-- An indexed-but-not-yet-read entry whose index title differs from the
title its content page will yield. -/
def rbC4 : Runbook := ⟨"a", "Pod CrashLoopBackOff", "u", none, none⟩

/-- The content page at url `u`: its `h1` says "Different Title". -/
def pgC4 : Page :=
  ⟨fun s => if s = "h1" then some "Different Title" else none, fun _ => none, some "Body"⟩

/-- Environment serving that one page. -/
def envC4 : Env := ⟨some [], fun u2 => if u2 = "u" then some pgC4 else none⟩

/-- The URI of the entry. -/
def uriC4 : Uri := ⟨"runbook", "kubernetes", "/a"⟩

/-- The extractor's result for that page. -/
def cdC4 : ContentData := extractContent "u" pgC4

/-- Counterexample to C4 as stated: the first successful read's
`runbook.update(content_data)` replaces the TITLE too — the entry's title
before the upgrade is the index link text "Pod CrashLoopBackOff", and after
the (successful) upgrade it is the extracted page title "Different Title",
so title is NOT preserved by the upgrade. -/
theorem upgrade_title_counterexample :
    (cacheGet [rbC4] "a").map Runbook.title = some "Pod CrashLoopBackOff" ∧
    (handleReadResource envC4 [rbC4] uriC4).1
      = .ok "# Different Title\n\nBody\n\nSource: u" ∧
    (cacheGet (handleReadResource envC4 [rbC4] uriC4).2 "a").map Runbook.title
      = some "Different Title" :=
  ⟨rfl, rfl, rfl⟩

/-- C4 (amended): the first successful read upgrades the entry in place by
one atomic merge of the extractor's dict: `slug` and `url` keep the values
they had immediately before the upgrade (the extractor echoes the url it was
called with), `content` and `description` are added — but `title` is
REPLACED by the extractor's title rather than preserved. -/
theorem upgrade_preserves_slug_url (env : Env) (cache : List Runbook) (uri : Uri)
    (rb : Runbook) (cd : ContentData)
    (h1 : uri.scheme = "runbook") (h2 : uri.host = "kubernetes")
    (h3 : uriSlug uri ≠ "")
    (h5 : cacheGet cache (uriSlug uri) = some rb) (h6 : rb.content = none)
    (h7 : fetchRunbookContent env rb.url = some cd) :
    (handleReadResource env cache uri).2 = cachePut cache (updateRunbook rb cd) ∧
    (updateRunbook rb cd).slug = rb.slug ∧
    (updateRunbook rb cd).url = rb.url ∧
    (updateRunbook rb cd).title = cd.title ∧
    (updateRunbook rb cd).content = some cd.content ∧
    (updateRunbook rb cd).description = some cd.description := by
  have hurl : cd.url = rb.url := by
    simp only [fetchRunbookContent, Option.map_eq_some'] at h7
    obtain ⟨pg, hpg, hcd⟩ := h7
    rw [← hcd]
    rfl
  rw [handleRead_valid env cache uri h1 h2 h3]
  simp only [resolveStep_of_found env h5, h5, h6, h7]
  simp [updateRunbook, hurl]

/-- C4 witness: the amended upgrade behaviour at the concrete scenario of
the counterexample — the final cache is exactly the single atomic
`cachePut` of the merged entry. -/
theorem upgrade_preserves_slug_url_witness :
    (handleReadResource envC4 [rbC4] uriC4).2
      = cachePut [rbC4] (updateRunbook rbC4 cdC4) :=
  (upgrade_preserves_slug_url envC4 [rbC4] uriC4 rbC4 cdC4 rfl rfl (by decide)
    (by decide) rfl rfl).1

/-! ### Claim C1 (corrected) -/

/-- A cache entry whose content has been populated. -/
def rbC1 : Runbook := ⟨"a", "A", "u", some "body text", some "body text"⟩

/-- An environment whose catalog lists (only) the runbook with slug `a`. -/
def envC1 : Env := ⟨some [⟨"/posts/kubernetes/a/", "A title here"⟩], fun _ => none⟩

/-- The URI of a slug that is NOT in the cache. -/
def uriC1 : Uri := ⟨"runbook", "kubernetes", "/b"⟩

/-- Counterexample to C1 as stated: entry `a` has populated content
`"body text"`; reading the absent slug `b` triggers the miss path's index
re-resolution (lines 218-220), which assigns a fresh content-free entry over
slug `a` — after the (NotFound-failing) read, entry `a`'s populated content
is gone. -/
theorem content_clobbered_counterexample :
    (cacheGet [rbC1] "a").map Runbook.content = some (some "body text") ∧
    (handleReadResource envC1 [rbC1] uriC1).1 = .error .notFound ∧
    (cacheGet (handleReadResource envC1 [rbC1] uriC1).2 "a").map Runbook.content
      = some none :=
  ⟨rfl, rfl, rfl⟩

/-- C1 (amended): populated content survives `list_entries`, `search` and
`topics` (their lazy load touches the cache only when it is empty), and
survives any `read` whose requested slug is already cached (the only mutation
such a read can make is the content-adding upgrade of the requested entry
itself); but a read of an ABSENT slug re-resolves the index and overwrites
every cached entry whose slug reappears in the fresh index with a
content-free entry, discarding its populated content. -/
theorem content_preserved_when_slug_cached (env : Env) (cache : List Runbook) :
    (cache ≠ [] → ensureLoaded env cache = cache) ∧
    (∀ (uri : Uri) (rb : Runbook), cacheGet cache (uriSlug uri) = some rb →
      ∀ (s : String) (r : Runbook) (c : String),
        cacheGet cache s = some r → r.content = some c →
        (cacheGet (handleReadResource env cache uri).2 s).map Runbook.content
          = some (some c)) := by
  constructor
  · intro hne
    cases cache with
    | nil => exact absurd rfl hne
    | cons x xs => simp [ensureLoaded]
  · intro uri rb hrb s r c hr hc
    by_cases h1 : uri.scheme = "runbook"
    case neg => simp [handleReadResource, h1, hr, hc]
    by_cases h2 : uri.host = "kubernetes"
    case neg => simp [handleReadResource, h1, h2, hr, hc]
    by_cases h3 : uriSlug uri = ""
    case pos => simp [handleReadResource, h1, h2, h3, hr, hc]
    rw [handleRead_valid env cache uri h1 h2 h3]
    simp only [resolveStep_of_found env hrb, hrb]
    cases hcont : rb.content with
    | some c2 => simp [hr, hc]
    | none =>
      cases hf : fetchRunbookContent env rb.url with
      | none => simp [hr, hc]
      | some cd =>
        by_cases hs : s = uriSlug uri
        · subst hs
          rw [hrb] at hr
          cases Option.some.inj hr
          rw [hcont] at hc
          cases hc
        · have hne2 : (updateRunbook rb cd).slug ≠ s := by
            simp only [updateRunbook]
            rw [cacheGet_slug_eq hrb]
            exact fun hh => hs hh.symm
          simp only [cacheGet_cachePut_ne cache hne2, hr, hc, Option.map_some']

/-- Environment/cache of the preservation witness: the requested slug is
cached with content. -/
def envC1w : Env := ⟨some [], fun _ => none⟩

/-- A populated entry. -/
def rbC1w : Runbook := ⟨"a", "T", "u", some "C", some "C"⟩

/-- The URI of the cached slug. -/
def uriC1w : Uri := ⟨"runbook", "kubernetes", "/a"⟩

/-- C1 witness: reading a slug that is already cached leaves the populated
content of a cached entry in place. -/
theorem content_preserved_when_slug_cached_witness :
    (cacheGet (handleReadResource envC1w [rbC1w] uriC1w).2 "a").map Runbook.content
      = some (some "C") :=
  (content_preserved_when_slug_cached envC1w [rbC1w]).2 uriC1w rbC1w (by decide)
    "a" rbC1w "C" (by decide) rfl

end KRunbooks
